import Mathlib

/-!
Verification of the iana-data aggregation and enrichment engine.

This file gives a shallow embedding, in Lean, of the core of the
repository:

* `src/parse/iptoasn.py` — the TSV row parser `parse_iptoasn_tsv`, the
  `ASNLookup` index (binary search over ranges sorted by start address),
  and its `lookup` method;
* `src/build/tlds.py` — `_build_tld_entry`, `_add_idn_mappings`,
  `_enrich_nameservers_with_asn` and `_ip_to_asn_object`;
* `src/utilities/content_changed.py` — `write_json_if_changed`;
* the helpers they call in `src/parse/country.py`,
  `src/parse/registry_agreement_csv.py` and `src/config.py`.

Modelling conventions.
Python strings are `String`, manipulated through their `List Char` data so
that every definition reduces in the kernel.  Python `None`-able values are
`Option`.  A Python exception escaping a function is the `raised`
constructor of `PyResult`.  Python dictionaries used as finite maps are
embedded as Lean functions into `Option`, or as association lists where
the dictionary is data (the persistence snapshot).  The CPython standard
library functions the code calls are embedded directly when they are small
(`str.strip`, `str.split`, `int()`, `ipaddress.IPv4Address`,
`ipaddress.IPv6Address`, `bisect.bisect_right`, `sorted`) and passed as
function parameters when they are large external tables or codecs
(`pycountry`, the `idna` codec).  `sorted` is embedded as a stable
insertion sort, which agrees extensionally with CPython's stable sort.
-/

/-! ### Small Python string helpers (over `List Char`) -/

/-- Splitting a character list on a separator character; embeds Python's
`str.split(sep)` for a one-character separator.  `splitOnChar c []` is
`[[]]`, like `"".split(sep)` which is `[""]`. -/
def splitOnChar (c : Char) : List Char → List (List Char)
  | [] => [[]]
  | x :: xs =>
    let rest := splitOnChar c xs
    if x = c then [] :: rest
    else
      match rest with
      | [] => [[x]]
      | r :: rs => (x :: r) :: rs

/-- Python's `str.strip()` with no argument: remove leading and trailing
whitespace. -/
def pyStrip (cs : List Char) : List Char :=
  ((cs.dropWhile Char.isWhitespace).reverse.dropWhile Char.isWhitespace).reverse

/-- Python's `str.lstrip(".")`: drop every leading dot. -/
def lstripDots (s : String) : String :=
  ⟨s.data.dropWhile (· = '.')⟩

/-- Python's `str.lower()` (ASCII part, which is all the code needs). -/
def pyLower (s : String) : String :=
  ⟨s.data.map Char.toLower⟩

/-- Python's `str.upper()` (ASCII part, which is all the code needs). -/
def pyUpper (s : String) : String :=
  ⟨s.data.map Char.toUpper⟩

/-- Python's `sep.join(parts)` over character lists. -/
def joinWithSep (sep : List Char) : List (List Char) → List Char
  | [] => []
  | [p] => p
  | p :: ps => p ++ sep ++ joinWithSep sep ps

/-- Python's `int(s)` on an already-stripped field: an optional sign
followed by a nonempty digit string (underscore grouping is not used in
the data and is not modelled). -/
def pyInt (s : String) : Option Int :=
  match s.data with
  | '-' :: ds =>
    if ds ≠ [] ∧ ds.all Char.isDigit then
      some (-(Int.ofNat (ds.foldl (fun acc c => acc * 10 + (c.toNat - '0'.toNat)) 0)))
    else none
  | '+' :: ds =>
    if ds ≠ [] ∧ ds.all Char.isDigit then
      some (Int.ofNat (ds.foldl (fun acc c => acc * 10 + (c.toNat - '0'.toNat)) 0))
    else none
  | ds =>
    if ds ≠ [] ∧ ds.all Char.isDigit then
      some (Int.ofNat (ds.foldl (fun acc c => acc * 10 + (c.toNat - '0'.toNat)) 0))
    else none

/-- Python truthiness of an optional string: `None` and `""` are falsy. -/
def optTruthy (o : Option String) : Option String :=
  match o with
  | some s => if s = "" then none else some s
  | none => none

/-! ### `ipaddress.IPv4Address` / `ipaddress.IPv6Address` as integers -/

/-- One dotted-quad octet as accepted by `ipaddress.IPv4Address`: one to
three decimal digits, no leading zero, value at most 255. -/
def parseOctet (cs : List Char) : Option Nat :=
  if cs = [] then none
  else if cs.length > 3 then none
  else if ¬ cs.all Char.isDigit then none
  else if cs.length > 1 ∧ cs.headD '0' = '0' then none
  else
    let n := cs.foldl (fun acc c => acc * 10 + (c.toNat - '0'.toNat)) 0
    if n ≤ 255 then some n else none

/-- `int(ipaddress.IPv4Address(s))`: `none` models the
`AddressValueError` raised on a malformed address. -/
def parseIPv4 (s : String) : Option Nat :=
  match (splitOnChar '.' s.data).mapM parseOctet with
  | some [a, b, c, d] => some (((a * 256 + b) * 256 + c) * 256 + d)
  | _ => none

/-- One `:`-separated IPv6 group: one to four hex digits. -/
def parseHexGroup (cs : List Char) : Option Nat :=
  if cs = [] then none
  else if cs.length > 4 then none
  else if ¬ cs.all (fun c => c.isDigit ∨ ('a' ≤ c.toLower ∧ c.toLower ≤ 'f')) then none
  else
    some (cs.foldl
      (fun acc c =>
        acc * 16 + (if c.isDigit then c.toNat - '0'.toNat else c.toLower.toNat - 'a'.toNat + 10))
      0)

/-- Assemble IPv6 groups once the parts are tokenised (`none` is an empty
part coming from a `::`).  Mirrors the validation done by
`ipaddress.IPv6Address`: a doubled empty part at either end collapses, at
most one empty token may remain, and it must stand for at least one
zero group. -/
def assembleV6 (toks0 : List (Option Nat)) : Option Nat :=
  let step1 : Option (List (Option Nat)) :=
    match toks0 with
    | none :: none :: rest => some (none :: rest)
    | none :: _ => none
    | _ => some toks0
  match step1 with
  | none => none
  | some t1 =>
    let step2 : Option (List (Option Nat)) :=
      match t1.reverse with
      | none :: none :: rest => some ((none :: rest).reverse)
      | none :: _ :: _ => none
      | _ => some t1
    match step2 with
    | none => none
    | some t2 =>
      let empties := t2.countP (fun t => t.isNone)
      if empties = 0 then
        if t2.length = 8 then
          (t2.mapM id).map (fun gs => gs.foldl (fun acc g => acc * 65536 + g) 0)
        else none
      else if empties = 1 then
        let hi := t2.takeWhile (fun t => t.isSome)
        let lo := (t2.dropWhile (fun t => t.isSome)).drop 1
        if lo.any (fun t => t.isNone) then none
        else if hi.length + lo.length ≤ 7 then
          let gs := (hi.map (fun t => t.getD 0))
              ++ List.replicate (8 - hi.length - lo.length) 0
              ++ (lo.map (fun t => t.getD 0))
          some (gs.foldl (fun acc g => acc * 65536 + g) 0)
        else none
      else none

/-- `int(ipaddress.IPv6Address(s))`: `none` models the
`AddressValueError` raised on a malformed address.  The last part may be
an embedded dotted-quad IPv4 address. -/
def parseIPv6 (s : String) : Option Nat :=
  let parts := splitOnChar ':' s.data
  if parts.length < 3 then none
  else
    let lastPart := parts.getLastD []
    let initParts := parts.dropLast
    let tokTail : Option (List (Option Nat)) :=
      if lastPart.contains '.' then
        match parseIPv4 ⟨lastPart⟩ with
        | some v => some [some (v / 65536), some (v % 65536)]
        | none => none
      else if lastPart = [] then some [none]
      else (parseHexGroup lastPart).map (fun n => [some n])
    let tokInit : Option (List (Option Nat)) :=
      initParts.mapM (fun p => if p = [] then some none else (parseHexGroup p).map some)
    match tokInit, tokTail with
    | some ti, some tt => assembleV6 (ti ++ tt)
    | _, _ => none

/-! ### Python exceptions, `sorted`, `bisect.bisect_right` -/

/-- Result of running a piece of Python code: either a value or an
uncaught exception. -/
inductive PyResult (α : Type) where
  | raised : PyResult α
  | ok : α → PyResult α
deriving DecidableEq, Repr

/-- Insert into a sorted list, keeping an earlier element before a tied
later one (stability). -/
def insertBy (le : α → α → Bool) (x : α) : List α → List α
  | [] => [x]
  | y :: ys => if le x y then x :: y :: ys else y :: insertBy le x ys

/-- Python's `sorted`, embedded as a stable insertion sort (extensionally
equal to CPython's stable sort for a total preorder). -/
def sortBy (le : α → α → Bool) : List α → List α
  | [] => []
  | x :: xs => insertBy le x (sortBy le xs)

/-- Python's `sorted` on strings (code-point lexicographic order, which
is Lean's `String` order). -/
def sortStrings (l : List String) : List String :=
  sortBy (fun a b => decide (a ≤ b)) l

/-- The loop of `bisect.bisect_right(a, x)` with explicit bounds and
fuel; the fuel only needs to dominate `hi - lo`. -/
def bisectRightAux (a : List Nat) (x : Nat) : Nat → Nat → Nat → Nat
  | lo, _, 0 => lo
  | lo, hi, fuel + 1 =>
    if lo < hi then
      let mid := (lo + hi) / 2
      if x < a.getD mid 0 then bisectRightAux a x lo mid fuel
      else bisectRightAux a x (mid + 1) hi fuel
    else lo

/-- `bisect.bisect_right(a, x)`. -/
def bisectRight (a : List Nat) (x : Nat) : Nat :=
  bisectRightAux a x 0 a.length a.length

/-! ### `src/parse/iptoasn.py` -/

/-- `ASNRecord` from `src/parse/iptoasn.py`: one row of the iptoasn TSV
table.  The addresses stay strings, exactly as in the dataclass. -/
structure ASNRecord where
  start_ip : String
  end_ip : String
  asn : Int
  country : String
  org : String
deriving DecidableEq, Repr, Inhabited

/-- Body of the `parse_iptoasn_tsv` loop for one line of the file:
strip, skip blank lines, split on tabs, skip rows with fewer than five
fields, parse the ASN as an integer (skipping the row on failure), and
join the remaining fields back into the organisation name. -/
def parse_iptoasn_line (line : String) : Option ASNRecord :=
  let stripped := pyStrip line.data
  if stripped = [] then none
  else
    let parts := splitOnChar '\t' stripped
    if parts.length < 5 then none
    else
      match pyInt ⟨parts.getD 2 []⟩ with
      | none => none
      | some asn =>
        some ⟨⟨parts.getD 0 []⟩, ⟨parts.getD 1 []⟩, asn, ⟨parts.getD 3 []⟩,
          ⟨joinWithSep ['\t'] (parts.drop 4)⟩⟩

/-- `parse_iptoasn_tsv` from `src/parse/iptoasn.py`, over the list of
lines of the file.  Malformed rows (too few fields, non-integer ASN) are
skipped; the IP address fields are not validated here. -/
def parse_iptoasn_tsv (lines : List String) : List ASNRecord :=
  lines.filterMap parse_iptoasn_line

/-- Does the string contain a colon — the address-family test
`":" in record.start_ip` used throughout `ASNLookup`. -/
def hasColon (s : String) : Bool :=
  s.data.contains ':'

/-- State of an `ASNLookup` instance after `__init__`: the two
family-sorted record lists and the parallel arrays of integer start
addresses used for binary search. -/
structure ASNLookup where
  ipv4_records : List ASNRecord
  ipv6_records : List ASNRecord
  ipv4_starts : List Nat
  ipv6_starts : List Nat
deriving DecidableEq, Repr, Inhabited

/-- Decorate each record of one family with the integer value of its
start address — the `key=lambda r: int(ipaddress.IPvXAddress(r.start_ip))`
computation of `sorted`.  A record whose start address does not parse
makes the whole computation fail, as the exception escapes `__init__`. -/
def keyRecords (parse : String → Option Nat) : List ASNRecord →
    Option (List (ASNRecord × Nat))
  | [] => some []
  | r :: rest =>
    match parse r.start_ip with
    | none => none
    | some n =>
      match keyRecords parse rest with
      | none => none
      | some ks => some ((r, n) :: ks)

/-- `ASNLookup.__init__` from `src/parse/iptoasn.py`: partition the rows
by address family, sort each family by the integer value of the start
address, and precompute the start integers.  `none` models the
`AddressValueError` that escapes when any start address of the family is
malformed. -/
def ASNLookup.init (records : List ASNRecord) : Option ASNLookup :=
  let ipv4 := records.filter (fun r => !(hasColon r.start_ip))
  let ipv6 := records.filter (fun r => hasColon r.start_ip)
  match keyRecords parseIPv4 ipv4, keyRecords parseIPv6 ipv6 with
  | some k4, some k6 =>
    let s4 := sortBy (fun a b => decide (a.2 ≤ b.2)) k4
    let s6 := sortBy (fun a b => decide (a.2 ≤ b.2)) k6
    some ⟨s4.map (fun p => p.1), s6.map (fun p => p.1),
      s4.map (fun p => p.2), s6.map (fun p => p.2)⟩
  | _, _ => none

/-- Common body of `ASNLookup._lookup_ipv4` and `_lookup_ipv6`, generic
in the address parser of the family: parse the queried address (a parse
failure is caught and yields no match), take the rightmost range whose
start is at most the address, and check the inclusive end bound.  The
end address of the candidate record is parsed outside any handler, so
its failure raises. -/
def lookupIn (parse : String → Option Nat) (recs : List ASNRecord)
    (starts : List Nat) (ip : String) : PyResult (Option ASNRecord) :=
  match parse ip with
  | none => .ok none
  | some ipInt =>
    let idx := bisectRight starts ipInt
    if idx = 0 then .ok none
    else
      match recs.get? (idx - 1) with
      | none => .raised
      | some record =>
        match parse record.end_ip with
        | none => .raised
        | some endInt => if ipInt ≤ endInt then .ok (some record) else .ok none

/-- `ASNLookup._lookup_ipv4`. -/
def ASNLookup.lookup_ipv4 (l : ASNLookup) (ip : String) : PyResult (Option ASNRecord) :=
  lookupIn parseIPv4 l.ipv4_records l.ipv4_starts ip

/-- `ASNLookup._lookup_ipv6`. -/
def ASNLookup.lookup_ipv6 (l : ASNLookup) (ip : String) : PyResult (Option ASNRecord) :=
  lookupIn parseIPv6 l.ipv6_records l.ipv6_starts ip

/-- `ASNLookup.lookup`: dispatch on the address family of the queried
string. -/
def ASNLookup.lookup (l : ASNLookup) (ip : String) : PyResult (Option ASNRecord) :=
  if hasColon ip then l.lookup_ipv6 ip else l.lookup_ipv4 ip

/-- The family parser selected by the colon test, used to state
family-generic properties of the index. -/
def famParse (fam : Bool) : String → Option Nat :=
  if fam then parseIPv6 else parseIPv4

/-- Integer start address of a record under a family parser (defined
when the parse succeeds). -/
def keyS (fam : Bool) (r : ASNRecord) : Nat :=
  (famParse fam r.start_ip).getD 0

/-- Integer end address of a record under a family parser (defined when
the parse succeeds). -/
def keyE (fam : Bool) (r : ASNRecord) : Nat :=
  (famParse fam r.end_ip).getD 0

/-! ### `src/config.py`, `src/parse/country.py`, `src/parse/registry_agreement_csv.py` -/

/-- `CCTLD_OVERRIDES` from `src/config.py`: manual country-name
overrides checked before the ISO table. -/
def CCTLD_OVERRIDES : List (String × String) :=
  [("ac", "Ascension Island"), ("eu", "European Union"),
   ("su", "Soviet Union"), ("uk", "United Kingdom")]

/-- `REGISTRY_AGREEMENT_TYPE_MAPPING` from `src/config.py`. -/
def REGISTRY_AGREEMENT_TYPE_MAPPING : List (String × String) :=
  [("Base", "base"), ("Brand (Spec 13)", "brand"),
   ("Community (Spec 12)", "community"), ("Sponsored", "sponsored"),
   ("Non-Sponsored", "non_sponsored")]

/-- `get_country_name` from `src/parse/country.py`.  The `pycountry`
package is an external table, passed as the function
`pycountryName : alpha-2 code → name`. -/
def get_country_name (pycountryName : String → Option String) (cctld : String) :
    Option String :=
  let cctld_lower := pyLower cctld
  match List.lookup cctld_lower CCTLD_OVERRIDES with
  | some n => some n
  | none => pycountryName (pyUpper cctld)

/-- `is_cctld` from `src/parse/country.py`: two characters and not an
IDN label. -/
def is_cctld (tld : String) : Bool :=
  tld.data.length == 2 && !(List.isPrefixOf "xn".data (pyLower tld).data)

/-- `get_normalized_agreement_types` from
`src/parse/registry_agreement_csv.py`: keep, in order, the normalised
value of every recognised raw agreement type. -/
def get_normalized_agreement_types (agreement_types : List String) : List String :=
  agreement_types.filterMap (fun raw => List.lookup raw REGISTRY_AGREEMENT_TYPE_MAPPING)

/-- Modelled from the spec: `derive_type_from_iana_tag` is imported by
`src/build/tlds.py` from `src.parse.root_db_html` but its definition is
not present under `src/`; the spec says the derived kind is ccTLD for
the `country-code` registry tag and gTLD for everything else, and the
repository's tests pin the strings `"cctld"` and `"gtld"`. -/
def derive_type_from_iana_tag (iana_tag : String) : String :=
  if iana_tag = "country-code" then "cctld" else "gtld"

/-! ### `src/build/tlds.py` data shapes -/

/-- A root-zone entry as produced by the root zone reader:
`{domain, type, manager}`. -/
structure RootZoneEntry where
  domain : String
  iana_type : String
  manager : String
deriving DecidableEq, Repr

/-- One nameserver block of the parsed TLD page: hostname plus raw IP
strings. -/
structure NSInput where
  hostname : String
  ipv4 : List String
  ipv6 : List String
deriving DecidableEq, Repr

/-- The `orgs` sub-dictionary of the parsed TLD page. -/
structure OrgsPage where
  admin : Option String
  tech : Option String
deriving DecidableEq, Repr

/-- Parsed per-TLD page data, the flat field dictionary consumed by
`_build_tld_entry` (a missing key is `none`). -/
structure PageData where
  orgs : Option OrgsPage
  nameservers : Option (List NSInput)
  registry_url : Option String
  whois_server : Option String
  rdap_server : Option String
  tld_created : Option String
  tld_updated : Option String
  tld_iso : Option String
deriving DecidableEq, Repr

/-- The empty page dictionary `{}` used when no page was parsed. -/
def PageData.empty : PageData :=
  ⟨none, none, none, none, none, none, none, none⟩

/-- One supplemental ccTLD RDAP entry (`{"rdap_server": url}`). -/
structure SupplementalEntry where
  rdap_server : String
deriving DecidableEq, Repr

/-- One registry agreement row (`{"agreement_types": [...]}`; the code
reads it with `.get("agreement_types", [])`). -/
structure RegistryAgreement where
  agreement_types : Option (List String)
deriving DecidableEq, Repr

/-- The IP object produced by `_ip_to_asn_object`:
`{ip, asn, as_org, as_country}`. -/
structure IPObject where
  ip : String
  asn : Int
  as_org : String
  as_country : String
deriving DecidableEq, Repr

/-- One enriched nameserver block of the output. -/
structure NSOutput where
  hostname : String
  ipv4 : List IPObject
  ipv6 : List IPObject
deriving DecidableEq, Repr

/-- The `orgs` object of the output entry. -/
structure Orgs where
  tld_manager : Option String
  admin : Option String
  tech : Option String
deriving DecidableEq, Repr

/-- The `annotations` object of the output entry (non-canonical /
derived data). -/
structure Annots where
  tld_manager_alias : Option String
  rdap_source : Option String
  country_name_iso : Option String
  registry_agreement_types : Option (List String)
  as_org_aliases : Option (List String)
deriving DecidableEq, Repr

/-- Is the annotations dictionary nonempty (`if annotations:`)? -/
def Annots.nonempty (a : Annots) : Bool :=
  a.tld_manager_alias.isSome || a.rdap_source.isSome || a.country_name_iso.isSome
    || a.registry_agreement_types.isSome || a.as_org_aliases.isSome

/-- Is the orgs dictionary nonempty (`if orgs:`)? -/
def Orgs.nonempty (o : Orgs) : Bool :=
  o.tld_manager.isSome || o.admin.isSome || o.tech.isSome

/-- One output TLD entry, the dictionary built by `_build_tld_entry`
(plus the `idn` field that `_add_idn_mappings` may attach; a missing key
is `none`). -/
structure TldEntry where
  tld : String
  tld_unicode : Option String
  tld_script : Option String
  tld_iso : Option String
  delegated : Bool
  iana_tag : String
  tld_type : String
  orgs : Option Orgs
  nameservers : Option (List NSOutput)
  registry_url : Option String
  whois_server : Option String
  rdap_server : Option String
  tld_created : Option String
  tld_updated : Option (List String)
  annotations : Option Annots
  idn : Option (List String)
deriving DecidableEq, Repr

/-! ### `src/build/tlds.py` functions -/

/-- `_ip_to_asn_object` from `src/build/tlds.py`: wrap an IP string into
an object with ASN metadata, using the sentinel `asn=0`, `"Unknown"`,
`"None"` when no lookup table is loaded or the address is in no known
range. -/
def ip_to_asn_object (ip : String) (asn_lookup : Option ASNLookup) : PyResult IPObject :=
  match asn_lookup with
  | none => .ok ⟨ip, 0, "Unknown", "None"⟩
  | some lk =>
    match lk.lookup ip with
    | .raised => .raised
    | .ok none => .ok ⟨ip, 0, "Unknown", "None"⟩
    | .ok (some record) => .ok ⟨ip, record.asn, record.org, record.country⟩

/-- Adding to the Python set `as_org_aliases_found`, modelled as a
duplicate-free list (its only consumer sorts it). -/
def setAdd (x : String) (s : List String) : List String :=
  if s.contains x then s else s ++ [x]

/-- One iteration of the IP loops of `_enrich_nameservers_with_asn`:
build the IP object and collect the canonical alias of its AS
organisation when the alias table knows it. -/
def enrich_ip (asn_lookup : Option ASNLookup) (as_org_aliases : String → Option String)
    (found : List String) (ip : String) : PyResult (IPObject × List String) :=
  match ip_to_asn_object ip asn_lookup with
  | .raised => .raised
  | .ok ip_obj =>
    match as_org_aliases ip_obj.as_org with
    | some al => .ok (ip_obj, setAdd al found)
    | none => .ok (ip_obj, found)

/-- The IP loop of `_enrich_nameservers_with_asn` over one address
list. -/
def enrich_ips (asn_lookup : Option ASNLookup) (as_org_aliases : String → Option String) :
    List String → List String → PyResult (List IPObject × List String)
  | [], found => .ok ([], found)
  | ip :: rest, found =>
    match enrich_ip asn_lookup as_org_aliases found ip with
    | .raised => .raised
    | .ok (obj, found1) =>
      match enrich_ips asn_lookup as_org_aliases rest found1 with
      | .raised => .raised
      | .ok (objs, found2) => .ok (obj :: objs, found2)

/-- One nameserver block of `_enrich_nameservers_with_asn`: transform
the IPv4 then the IPv6 addresses. -/
def enrich_ns (asn_lookup : Option ASNLookup) (as_org_aliases : String → Option String)
    (ns : NSInput) (found : List String) : PyResult (NSOutput × List String) :=
  match enrich_ips asn_lookup as_org_aliases ns.ipv4 found with
  | .raised => .raised
  | .ok (v4, found1) =>
    match enrich_ips asn_lookup as_org_aliases ns.ipv6 found1 with
    | .raised => .raised
    | .ok (v6, found2) => .ok (⟨ns.hostname, v4, v6⟩, found2)

/-- `_enrich_nameservers_with_asn` from `src/build/tlds.py`: transform
nameserver IP strings to objects with ASN metadata, threading the set of
AS-organisation aliases found. -/
def enrich_nameservers_with_asn (nameservers : List NSInput)
    (asn_lookup : Option ASNLookup) (as_org_aliases : String → Option String)
    (found : List String) : PyResult (List NSOutput × List String) :=
  match nameservers with
  | [] => .ok ([], found)
  | ns :: rest =>
    match enrich_ns asn_lookup as_org_aliases ns found with
    | .raised => .raised
    | .ok (out, found1) =>
      match enrich_nameservers_with_asn rest asn_lookup as_org_aliases found1 with
      | .raised => .raised
      | .ok (outs, found2) => .ok (out :: outs, found2)

/-- `_build_tld_entry` from `src/build/tlds.py`: build one output TLD
entry from a root-zone entry, the RDAP maps, the parsed page data, the
alias and agreement tables and the optional ASN index.  The `idna` codec
(`tld.encode("ascii").decode("idna")`, whose failure the code catches)
and the `pycountry` table are external collaborators passed as
functions. -/
def build_tld_entry
    (idnaDecode : String → Option String)
    (pycountryName : String → Option String)
    (root_zone_entry : RootZoneEntry)
    (rdap_lookup : String → Option String)
    (supplemental_rdap : String → Option SupplementalEntry)
    (page_data : PageData)
    (idn_script_mapping : String → Option String)
    (registry_agreements : String → Option RegistryAgreement)
    (tld_manager_aliases : String → Option String)
    (as_org_aliases : String → Option String)
    (asn_lookup : Option ASNLookup) : PyResult TldEntry :=
  let tld := lstripDots root_zone_entry.domain
  let tld_manager := root_zone_entry.manager
  let iana_tag := root_zone_entry.iana_type
  let tld_unicode :=
    if List.isPrefixOf "xn--".data tld.data then idnaDecode tld else none
  let tld_script := idn_script_mapping tld
  let tld_iso := page_data.tld_iso
  let delegated := !(tld_manager == "Not assigned")
  let tld_type := derive_type_from_iana_tag iana_tag
  let tld_manager_alias :=
    if delegated then tld_manager_aliases tld_manager else none
  let orgs : Orgs :=
    ⟨if delegated then some tld_manager else none,
     page_data.orgs.bind (fun o => o.admin),
     page_data.orgs.bind (fun o => o.tech)⟩
  let enriched : PyResult (Option (List NSOutput) × List String) :=
    match page_data.nameservers with
    | none => .ok (none, [])
    | some nss =>
      match enrich_nameservers_with_asn nss asn_lookup as_org_aliases [] with
      | .raised => .raised
      | .ok (res, found) => .ok (some res, found)
  match enriched with
  | .raised => .raised
  | .ok (nameservers, as_org_aliases_found) =>
    let rdap : Option String × Option String :=
      if page_data.rdap_server.isSome then (page_data.rdap_server, some "IANA")
      else
        match rdap_lookup tld with
        | some u => (some u, some "IANA")
        | none =>
          match supplemental_rdap tld with
          | some se => (some se.rdap_server, some "supplemental")
          | none => (none, none)
    let annots : Annots :=
      ⟨optTruthy tld_manager_alias,
       optTruthy rdap.2,
       (if is_cctld tld then optTruthy (get_country_name pycountryName tld)
        else
          match tld_iso with
          | some iso => optTruthy (get_country_name pycountryName iso)
          | none => none),
       (match registry_agreements tld with
        | some agreement =>
          let ts := get_normalized_agreement_types (agreement.agreement_types.getD [])
          if ts ≠ [] then some ts else none
        | none => none),
       (if as_org_aliases_found ≠ [] then some (sortStrings as_org_aliases_found)
        else none)⟩
    .ok ⟨tld, tld_unicode, tld_script, tld_iso, delegated, iana_tag, tld_type,
      (if orgs.nonempty then some orgs else none),
      nameservers,
      page_data.registry_url,
      page_data.whois_server,
      optTruthy rdap.1,
      page_data.tld_created,
      page_data.tld_updated.map (fun u => [u]),
      (if annots.nonempty then some annots else none),
      none⟩

/-- The `rdap_source` annotation of an entry, if any. -/
def TldEntry.rdapSourceAnn (e : TldEntry) : Option String :=
  e.annotations.bind (fun a => a.rdap_source)

/-- Replace the `idn` field of an entry (the in-place
`tld_lookup[ascii_tld]["idn"] = sorted(idn_list)` mutation). -/
def TldEntry.withIdn (e : TldEntry) (l : List String) : TldEntry :=
  ⟨e.tld, e.tld_unicode, e.tld_script, e.tld_iso, e.delegated, e.iana_tag,
   e.tld_type, e.orgs, e.nameservers, e.registry_url, e.whois_server,
   e.rdap_server, e.tld_created, e.tld_updated, e.annotations, some l⟩

/-- The IDN labels grouped under one ASCII label by `_add_idn_mappings`:
the labels of the entries whose `tld_iso` is that ASCII label, in list
order. -/
def idnGroup (tlds : List TldEntry) (ascii_tld : String) : List String :=
  (tlds.filter (fun e => e.tld_iso == some ascii_tld)).map (fun e => e.tld)

/-- `_add_idn_mappings` from `src/build/tlds.py`, as a function from the
entry list to the updated entry list.  The Python code mutates, through
`tld_lookup`, the last entry carrying each ASCII label (dictionary
comprehensions keep the last binding), so an entry is updated exactly
when some entry's `tld_iso` equals its label and no later entry shares
its label. -/
def add_idn_mappings (tlds : List TldEntry) : List TldEntry :=
  tlds.enum.map (fun ie =>
    let e := ie.2
    if !(idnGroup tlds e.tld).isEmpty
        && (tlds.drop (ie.1 + 1)).all (fun e2 => !(e2.tld == e.tld)) then
      e.withIdn (sortStrings (idnGroup tlds e.tld))
    else e)

/-! ### `src/utilities/content_changed.py` -/

/-- What the bytes of the snapshot file parse to: either a JSON object
(a top-level dictionary, kept as an association list over an abstract
value type `V`) or garbage that `json.load` rejects. -/
inductive FileContent (V : Type) where
  | corrupt : FileContent V
  | parsed : List (String × V) → FileContent V
deriving DecidableEq, Repr

/-- The slice of the file system `write_json_if_changed` touches: the
target file's parse outcome (`none` when the file does not exist) and
its modification time.  Writing stores the dumped dataset and stamps the
current time; this encodes the round trip
`json.load(json.dump(d)) = d`, which holds for the string-keyed,
JSON-representable dictionaries the function receives. -/
structure FileState (V : Type) where
  content : Option (FileContent V)
  mtime : Nat
deriving DecidableEq, Repr

/-- `dict.pop(field, None)` on a top-level JSON object. -/
def popField (field : String) (d : List (String × V)) : List (String × V) :=
  d.filter (fun kv => !(kv.1 == field))

/-- The exclusion loop of `write_json_if_changed`: strip every volatile
field from a top-level object. -/
def stripFields (exclude_fields : List String) (d : List (String × V)) :
    List (String × V) :=
  exclude_fields.foldl (fun acc f => popField f acc) d

/-- Python `==` on two top-level dictionaries: same keys, same values
(association lists compare through their first bindings; the
dictionaries the code produces have no duplicate keys). -/
def dictBeq [DecidableEq V] (d1 d2 : List (String × V)) : Bool :=
  d1.all (fun kv => List.lookup kv.1 d1 == List.lookup kv.1 d2)
    && d2.all (fun kv => List.lookup kv.1 d1 == List.lookup kv.1 d2)

/-- Result of `write_json_if_changed`: the file system afterwards and
the returned `(changed, status)` pair. -/
structure WriteOutcome (V : Type) where
  fs : FileState V
  changed : Bool
  status : String
deriving DecidableEq, Repr

/-- `write_json_if_changed` from `src/utilities/content_changed.py`, on
the file-system slice, with I/O succeeding (the `status="error"` paths
are failures of `open`/`write` themselves, not data-dependent): if the
file does not exist, write it; if it exists but does not parse, treat as
changed and overwrite; otherwise compare the two objects with the
volatile fields stripped from deep copies, keep the file untouched when
equal, and overwrite when not.  `now` is the wall-clock time the write
would stamp. -/
def write_json_if_changed [DecidableEq V] (now : Nat) (fs : FileState V)
    (data : List (String × V)) (exclude_fields : List String) : WriteOutcome V :=
  match fs.content with
  | none => ⟨⟨some (.parsed data), now⟩, true, "written"⟩
  | some .corrupt => ⟨⟨some (.parsed data), now⟩, true, "written"⟩
  | some (.parsed existing_data) =>
    if dictBeq (stripFields exclude_fields data)
        (stripFields exclude_fields existing_data) then
      ⟨fs, false, "unchanged"⟩
    else
      ⟨⟨some (.parsed data), now⟩, true, "written"⟩

/-! ### Concrete fixtures used to instantiate the theorems -/

/-- The Cloudflare range of the repository's iptoasn test fixture. -/
def cfRec : ASNRecord := ⟨"1.0.0.0", "1.0.0.255", 13335, "US", "CLOUDFLARENET"⟩

/-- The `asn=0` "Not routed" range of the repository's iptoasn test
fixture. -/
def nrRec : ASNRecord := ⟨"1.0.1.0", "1.0.1.255", 0, "None", "Not routed"⟩

/-- A two-range IPv4 table: `1.0.0.0-1.0.0.255` routed, `1.0.1.0-1.0.1.255`
not routed, nothing else covered. -/
def recsA : List ASNRecord := [cfRec, nrRec]

/-- The index `ASNLookup.__init__` builds from `recsA`. -/
def lookupA : ASNLookup := ⟨recsA, [], [16777216, 16777472], []⟩

/-- A row of the iptoasn TSV table whose fields are all well formed. -/
def goodLine : String := "1.0.0.0\t1.0.0.255\t13335\tUS\tCLOUDFLARENET"

/-- A row of the iptoasn TSV table with five fields and an integer ASN
but a malformed start address. -/
def badLine : String := "bad\t1.0.1.255\t0\tNone\tNot routed"

/-- The record the TSV parser keeps for `badLine` (the address fields
are not validated at parse time). -/
def badRec : ASNRecord := ⟨"bad", "1.0.1.255", 0, "None", "Not routed"⟩

/-- The everywhere-empty string map (a table with no entries). -/
def noStrMap : String → Option String := fun _ => none

/-- The empty supplemental RDAP map. -/
def noSupp : String → Option SupplementalEntry := fun _ => none

/-- The empty registry agreement map. -/
def noAgree : String → Option RegistryAgreement := fun _ => none

/-- A root-zone entry for a delegated generic TLD. -/
def rzExample : RootZoneEntry := ⟨".example", "generic", "Example Org"⟩

/-- Page data carrying one nameserver with one IPv4 and one IPv6
address and nothing else. -/
def nsPage : PageData :=
  ⟨none, some [⟨"ns1.example", ["1.2.3.4"], ["2:db8::1"]⟩],
   none, none, none, none, none, none⟩

/-- Page data whose only field is an empty-string RDAP server. -/
def emptyRdapPage : PageData :=
  ⟨none, none, none, none, some "", none, none, none⟩

/-- Page data whose only field is a nonempty RDAP server URL. -/
def pageRdapPage : PageData :=
  ⟨none, none, none, none, some "https://page.example/rdap", none, none, none⟩

/-- The IANA bootstrap map of the spec's two-source scenario: it maps
the label `example` to `https://rdap.iana.org/`. -/
def bsLookup : String → Option String :=
  fun t => if t = "example" then some "https://rdap.iana.org/" else none

/-- The `rdap_server` field of a build result (`none` when the build
raised). -/
def pyRdapServer (p : PyResult TldEntry) : Option String :=
  match p with
  | .raised => none
  | .ok e => e.rdap_server

/-- The `rdap_source` annotation of a build result (`none` when the
build raised). -/
def pyRdapSource (p : PyResult TldEntry) : Option String :=
  match p with
  | .raised => none
  | .ok e => e.rdapSourceAnn

/-- The entry built from `rzExample` with `pageRdapPage` and otherwise
empty sources. -/
def c9WitnessEntry : TldEntry :=
  ⟨"example", none, none, none, true, "generic", "gtld",
   some ⟨some "Example Org", none, none⟩, none, none, none,
   some "https://page.example/rdap", none, none,
   some ⟨none, some "IANA", none, none, none⟩, none⟩

/-- A minimal ccTLD entry used to exercise the cross-reference pass. -/
def mkCcEntry (t : String) (iso : Option String) : TldEntry :=
  ⟨t, none, none, iso, true, "country-code", "cctld", none, none, none,
   none, none, none, none, none, none⟩

/-- An ASCII ccTLD `tw`, two IDN ccTLDs pointing at it, and one IDN
ccTLD pointing at an absent label `qq`. -/
def tlds4 : List TldEntry :=
  [mkCcEntry "tw" none, mkCcEntry "xn--kpry57d" (some "tw"),
   mkCcEntry "xn--kprw13d" (some "tw"), mkCcEntry "xn--zz" (some "qq")]

/-! ### Lemmas about the embedded `sorted` -/

theorem sortBy_eq_self (le : α → α → Bool) (l : List α)
    (h : l.Pairwise (fun a b => le a b = true)) : sortBy le l = l := by
  induction l with
  | nil => rfl
  | cons x xs ih =>
    rw [List.pairwise_cons] at h
    rw [sortBy, ih h.2]
    cases xs with
    | nil => rfl
    | cons y ys =>
      simp [insertBy, h.1 y (by simp)]

theorem mem_insertBy (le : α → α → Bool) (x a : α) (l : List α) :
    a ∈ insertBy le x l ↔ a = x ∨ a ∈ l := by
  induction l with
  | nil => simp [insertBy]
  | cons y ys ih =>
    rw [insertBy]
    by_cases hxy : le x y = true
    · simp [hxy]
    · simp only [if_neg hxy, List.mem_cons, ih]
      tauto

theorem mem_sortBy (le : α → α → Bool) (a : α) (l : List α) :
    a ∈ sortBy le l ↔ a ∈ l := by
  induction l with
  | nil => rfl
  | cons x xs ih =>
    rw [sortBy, mem_insertBy, ih, List.mem_cons]

theorem pairwise_insertBy (le : α → α → Bool)
    (htot : ∀ a b, le a b = true ∨ le b a = true)
    (htrans : ∀ a b c, le a b = true → le b c = true → le a c = true)
    (x : α) (l : List α) (h : l.Pairwise (fun a b => le a b = true)) :
    (insertBy le x l).Pairwise (fun a b => le a b = true) := by
  induction l with
  | nil => simp [insertBy]
  | cons y ys ih =>
    rw [List.pairwise_cons] at h
    rw [insertBy]
    by_cases hxy : le x y = true
    · rw [if_pos hxy, List.pairwise_cons]
      refine ⟨?_, List.pairwise_cons.mpr h⟩
      intro b hb
      rcases List.mem_cons.mp hb with hb | hb
      · exact hb ▸ hxy
      · exact htrans x y b hxy (h.1 b hb)
    · rw [if_neg hxy, List.pairwise_cons]
      refine ⟨?_, ih h.2⟩
      intro b hb
      rcases (mem_insertBy le x b ys).mp hb with hb | hb
      · rw [hb]
        rcases htot x y with hx | hx
        · exact absurd hx hxy
        · exact hx
      · exact h.1 b hb

theorem pairwise_sortBy (le : α → α → Bool)
    (htot : ∀ a b, le a b = true ∨ le b a = true)
    (htrans : ∀ a b c, le a b = true → le b c = true → le a c = true)
    (l : List α) : (sortBy le l).Pairwise (fun a b => le a b = true) := by
  induction l with
  | nil => simp [sortBy]
  | cons x xs ih => exact pairwise_insertBy le htot htrans x (sortBy le xs) ih

theorem mem_sortStrings (a : String) (l : List String) :
    a ∈ sortStrings l ↔ a ∈ l :=
  mem_sortBy _ a l

theorem sortStrings_sorted (l : List String) :
    (sortStrings l).Pairwise (fun a b => a ≤ b) := by
  have h := pairwise_sortBy (fun a b : String => decide (a ≤ b))
    (fun a b => by rcases le_total a b with h | h <;> simp [h])
    (fun a b c hab hbc => by
      simp only [decide_eq_true_eq] at *
      exact le_trans hab hbc) l
  exact h.imp (fun hab => by simpa using hab)

/-! ### Lemmas about the embedded `bisect.bisect_right` -/

theorem bisectRightAux_spec (a : List Nat) (x : Nat)
    (hsorted : ∀ i j, i < j → j < a.length → a.getD i 0 ≤ a.getD j 0) :
    ∀ fuel lo hi, lo ≤ hi → hi ≤ a.length → hi - lo ≤ fuel →
    (∀ i, i < lo → a.getD i 0 ≤ x) →
    (∀ i, hi ≤ i → i < a.length → x < a.getD i 0) →
    lo ≤ bisectRightAux a x lo hi fuel ∧ bisectRightAux a x lo hi fuel ≤ hi ∧
    (∀ i, i < bisectRightAux a x lo hi fuel → a.getD i 0 ≤ x) ∧
    (∀ i, bisectRightAux a x lo hi fuel ≤ i → i < a.length → x < a.getD i 0) := by
  intro fuel
  induction fuel with
  | zero =>
    intro lo hi hlohi hhi hfuel hlo hhiP
    have heq : hi = lo := by omega
    subst heq
    exact ⟨le_refl _, le_refl _, hlo, hhiP⟩
  | succ fuel ih =>
    intro lo hi hlohi hhi hfuel hlo hhiP
    rw [bisectRightAux]
    by_cases h : lo < hi
    · rw [if_pos h]
      have hmid1 : lo ≤ (lo + hi) / 2 := by omega
      have hmid2 : (lo + hi) / 2 < hi := by omega
      by_cases hx : x < a.getD ((lo + hi) / 2) 0
      · rw [if_pos hx]
        have hres := ih lo ((lo + hi) / 2) hmid1 (by omega) (by omega) hlo ?_
        · exact ⟨hres.1, le_trans hres.2.1 (le_of_lt hmid2), hres.2.2⟩
        · intro i hi1 hi2
          rcases Nat.eq_or_lt_of_le hi1 with heq | hlt
          · rw [← heq]
            exact hx
          · exact lt_of_lt_of_le hx (hsorted _ i hlt hi2)
      · rw [if_neg hx]
        push_neg at hx
        have hres := ih ((lo + hi) / 2 + 1) hi (by omega) hhi (by omega) ?_ hhiP
        · exact ⟨le_trans (by omega) hres.1, hres.2.1, hres.2.2⟩
        · intro i hi1
          rcases Nat.lt_succ_iff_lt_or_eq.mp hi1 with hlt | heq
          · exact le_trans (hsorted i _ hlt (lt_of_lt_of_le hmid2 hhi)) hx
          · rw [heq]
            exact hx
    · rw [if_neg h]
      have heq : hi = lo := by omega
      subst heq
      exact ⟨le_refl _, le_refl _, hlo, hhiP⟩

theorem bisectRight_spec (a : List Nat) (x : Nat)
    (hsorted : ∀ i j, i < j → j < a.length → a.getD i 0 ≤ a.getD j 0) :
    bisectRight a x ≤ a.length ∧
    (∀ i, i < bisectRight a x → a.getD i 0 ≤ x) ∧
    (∀ i, bisectRight a x ≤ i → i < a.length → x < a.getD i 0) := by
  have h := bisectRightAux_spec a x hsorted a.length 0 a.length (Nat.zero_le _)
    (le_refl _) (by omega) (by omega) (by omega)
  exact ⟨h.2.1, h.2.2.1, h.2.2.2⟩

/-! ### Lemmas about `ASNLookup.init` and the family lookup -/

theorem keyRecords_eq_map (parse : String → Option Nat) (rs : List ASNRecord)
    (h : ∀ r ∈ rs, (parse r.start_ip).isSome) :
    keyRecords parse rs = some (rs.map (fun r => (r, (parse r.start_ip).getD 0))) := by
  induction rs with
  | nil => rfl
  | cons r rest ih =>
    have hr := h r (by simp)
    rcases Option.isSome_iff_exists.mp hr with ⟨n, hn⟩
    rw [keyRecords, hn, ih (fun r hr => h r (List.mem_cons_of_mem _ hr))]
    simp [hn]

theorem keyRecords_none (parse : String → Option Nat) (rs : List ASNRecord)
    (r : ASNRecord) (hr : r ∈ rs) (h : parse r.start_ip = none) :
    keyRecords parse rs = none := by
  induction rs with
  | nil => cases hr
  | cons r0 rest ih =>
    rw [keyRecords]
    rcases List.mem_cons.mp hr with heq | hmem
    · rw [← heq, h]
    · cases h0 : parse r0.start_ip with
      | none => rfl
      | some n =>
        rw [ih hmem]

/-- The structure `__init__` builds from a family-homogeneous record
list whose start keys are already sorted: the records keep their order
and the starts array is the key of each record, in order. -/
theorem init_homogeneous (fam : Bool) (rs : List ASNRecord)
    (hfam : ∀ r ∈ rs, hasColon r.start_ip = fam)
    (hS : ∀ r ∈ rs, (famParse fam r.start_ip).isSome)
    (hmono : rs.Pairwise (fun a b => keyS fam a ≤ keyS fam b)) :
    ASNLookup.init rs =
      some (if fam then
        ⟨[], rs, [], rs.map (keyS fam)⟩
      else
        ⟨rs, [], rs.map (keyS fam), []⟩) := by
  have hpair : (rs.map (fun r => (r, keyS fam r))).Pairwise
      (fun a b => (decide (a.2 ≤ b.2)) = true) := by
    rw [List.pairwise_map]
    exact hmono.imp (fun h => by simpa using h)
  have hsorteq := sortBy_eq_self
    (fun a b : ASNRecord × Nat => decide (a.2 ≤ b.2)) _ hpair
  cases fam with
  | false =>
    have h4 : rs.filter (fun r => !(hasColon r.start_ip)) = rs :=
      List.filter_eq_self.mpr (fun r hr => by simp [hfam r hr])
    have h6 : rs.filter (fun r => hasColon r.start_ip) = [] :=
      List.filter_eq_nil_iff.mpr (fun r hr => by simp [hfam r hr])
    have hk4 : keyRecords parseIPv4 rs = some (rs.map (fun r => (r, keyS false r))) :=
      keyRecords_eq_map parseIPv4 rs (fun r hr => hS r hr)
    have hk6 : keyRecords parseIPv6 ([] : List ASNRecord) = some [] := rfl
    rw [ASNLookup.init, h4, h6, hk4, hk6]
    simp only [hsorteq]
    simp [sortBy, Function.comp_def]
  | true =>
    have h4 : rs.filter (fun r => !(hasColon r.start_ip)) = [] :=
      List.filter_eq_nil_iff.mpr (fun r hr => by simp [hfam r hr])
    have h6 : rs.filter (fun r => hasColon r.start_ip) = rs :=
      List.filter_eq_self.mpr (fun r hr => hfam r hr)
    have hk6 : keyRecords parseIPv6 rs = some (rs.map (fun r => (r, keyS true r))) :=
      keyRecords_eq_map parseIPv6 rs (fun r hr => hS r hr)
    have hk4 : keyRecords parseIPv4 ([] : List ASNRecord) = some [] := rfl
    rw [ASNLookup.init, h4, h6, hk4, hk6]
    simp only [hsorteq]
    simp [sortBy, Function.comp_def]

/-- Integer start address of a record under an address parser. -/
def sInt (parse : String → Option Nat) (r : ASNRecord) : Nat :=
  (parse r.start_ip).getD 0

/-- Integer end address of a record under an address parser. -/
def eInt (parse : String → Option Nat) (r : ASNRecord) : Nat :=
  (parse r.end_ip).getD 0

theorem getD_map_key (f : ASNRecord → Nat) (l : List ASNRecord) (j : Nat)
    (h : j < l.length) : (l.map f).getD j 0 = f (l.getD j default) := by
  rw [List.getD_eq_getElem?_getD, List.getElem?_map, List.getD_eq_getElem?_getD,
    List.getElem?_eq_getElem h]
  simp

theorem lookupIn_hit (parse : String → Option Nat) (rs : List ASNRecord)
    (q : String) (x : Nat) (i : Nat) (hilen : i < rs.length)
    (hq : parse q = some x)
    (hsorted : ∀ j k, j < k → k < rs.length →
      sInt parse (rs.getD j default) ≤ sInt parse (rs.getD k default))
    (hE : (parse (rs.getD i default).end_ip).isSome)
    (hbelow : ∀ j, j ≤ i → sInt parse (rs.getD j default) ≤ x)
    (habove : ∀ j, i < j → j < rs.length → x < sInt parse (rs.getD j default))
    (hend : x ≤ eInt parse (rs.getD i default)) :
    lookupIn parse rs (rs.map (sInt parse)) q = .ok (some (rs.getD i default)) := by
  have hlen : (rs.map (sInt parse)).length = rs.length := List.length_map _ _
  have hget : ∀ j, j < rs.length →
      (rs.map (sInt parse)).getD j 0 = sInt parse (rs.getD j default) :=
    fun j hj => getD_map_key (sInt parse) rs j hj
  have hspec := bisectRight_spec (rs.map (sInt parse)) x (by
    intro j k hjk hk
    rw [hlen] at hk
    rw [hget j (lt_trans hjk hk), hget k hk]
    exact hsorted j k hjk hk)
  set idx := bisectRight (rs.map (sInt parse)) x with hidx
  have hidxlen : idx ≤ rs.length := by rw [← hlen]; exact hspec.1
  have hidx1 : i < idx := by
    by_contra hcon
    push_neg at hcon
    have := hspec.2.2 i hcon (by rw [hlen]; exact hilen)
    rw [hget i hilen] at this
    exact absurd (hbelow i (le_refl i)) (not_le.mpr this)
  have hidx2 : idx ≤ i + 1 := by
    by_contra hcon
    push_neg at hcon
    have hi1 : i + 1 < rs.length := lt_of_lt_of_le hcon hidxlen
    have := hspec.2.1 (i + 1) hcon
    rw [hget (i + 1) hi1] at this
    exact absurd (habove (i + 1) (Nat.lt_succ_self i) hi1) (not_lt.mpr this)
  have hidxeq : idx = i + 1 := le_antisymm hidx2 hidx1
  rcases Option.isSome_iff_exists.mp hE with ⟨e, he⟩
  have he2 : eInt parse (rs.getD i default) = e := by
    rw [eInt, he]
    rfl
  rw [lookupIn, hq]
  simp only [← hidx, hidxeq]
  rw [if_neg (Nat.succ_ne_zero i), Nat.add_sub_cancel]
  have hgetd : rs.getD i default = rs[i] := by
    rw [List.getD_eq_getElem?_getD, List.getElem?_eq_getElem hilen]
    rfl
  rw [List.get?_eq_getElem?, List.getElem?_eq_getElem hilen, ← hgetd]
  simp only [he]
  rw [if_pos (he2 ▸ hend)]

theorem lookupIn_miss (parse : String → Option Nat) (rs : List ASNRecord)
    (q : String) (x : Nat)
    (hq : parse q = some x)
    (hsorted : ∀ j k, j < k → k < rs.length →
      sInt parse (rs.getD j default) ≤ sInt parse (rs.getD k default))
    (hE : ∀ r ∈ rs, (parse r.end_ip).isSome)
    (huncov : ∀ r ∈ rs, ¬(sInt parse r ≤ x ∧ x ≤ eInt parse r)) :
    lookupIn parse rs (rs.map (sInt parse)) q = .ok none := by
  have hlen : (rs.map (sInt parse)).length = rs.length := List.length_map _ _
  have hget : ∀ j, j < rs.length →
      (rs.map (sInt parse)).getD j 0 = sInt parse (rs.getD j default) :=
    fun j hj => getD_map_key (sInt parse) rs j hj
  have hspec := bisectRight_spec (rs.map (sInt parse)) x (by
    intro j k hjk hk
    rw [hlen] at hk
    rw [hget j (lt_trans hjk hk), hget k hk]
    exact hsorted j k hjk hk)
  set idx := bisectRight (rs.map (sInt parse)) x with hidx
  rw [lookupIn, hq]
  simp only [← hidx]
  by_cases h0 : idx = 0
  · rw [if_pos h0]
  · rw [if_neg h0]
    have hpos : 1 ≤ idx := Nat.one_le_iff_ne_zero.mpr h0
    have hlt : idx - 1 < rs.length := by
      have := hspec.1
      rw [hlen] at this
      omega
    have hmem : rs.getD (idx - 1) default ∈ rs := by
      rw [List.getD_eq_getElem?_getD, List.getElem?_eq_getElem hlt]
      exact List.getElem_mem _
    have hle : sInt parse (rs.getD (idx - 1) default) ≤ x := by
      have := hspec.2.1 (idx - 1) (by omega)
      rw [hget (idx - 1) hlt] at this
      exact this
    have hgt : eInt parse (rs.getD (idx - 1) default) < x := by
      have h := huncov _ hmem
      push_neg at h
      exact lt_of_not_le (fun hcon => absurd (h hle) (not_lt.mpr hcon))
    rcases Option.isSome_iff_exists.mp (hE _ hmem) with ⟨e, he⟩
    have he2 : eInt parse (rs.getD (idx - 1) default) = e := by
      rw [eInt, he]
      rfl
    have hgetd : rs.getD (idx - 1) default = rs[idx - 1] := by
      rw [List.getD_eq_getElem?_getD, List.getElem?_eq_getElem hlt]
      rfl
    rw [List.get?_eq_getElem?, List.getElem?_eq_getElem hlt, ← hgetd]
    simp only [he]
    rw [if_neg (not_le.mpr (he2 ▸ hgt))]

theorem getD_eq_getElem_rec (l : List ASNRecord) (j : Nat) (h : j < l.length) :
    l.getD j default = l[j] := by
  rw [List.getD_eq_getElem?_getD, List.getElem?_eq_getElem h]
  rfl

/-- Correctness of the family lookup over a sorted, pairwise-disjoint,
well-formed range list: every range is found at both of its inclusive
endpoints, and an address covered by no range yields no match. -/
theorem family_core (parse : String → Option Nat) (rs : List ASNRecord)
    (hS : ∀ r ∈ rs, (parse r.start_ip).isSome)
    (hE : ∀ r ∈ rs, (parse r.end_ip).isSome)
    (hleM : ∀ r ∈ rs, sInt parse r ≤ eInt parse r)
    (hchain : rs.Pairwise (fun a b => eInt parse a < sInt parse b)) :
    (∀ r ∈ rs, lookupIn parse rs (rs.map (sInt parse)) r.start_ip = .ok (some r) ∧
               lookupIn parse rs (rs.map (sInt parse)) r.end_ip = .ok (some r)) ∧
    (∀ ip x, parse ip = some x →
      (∀ r ∈ rs, ¬(sInt parse r ≤ x ∧ x ≤ eInt parse r)) →
      lookupIn parse rs (rs.map (sInt parse)) ip = .ok none) := by
  have hchainIdx : ∀ j k, j < k → k < rs.length →
      eInt parse (rs.getD j default) < sInt parse (rs.getD k default) := by
    intro j k hjk hk
    have h := List.pairwise_iff_getElem.mp hchain j k (lt_trans hjk hk) hk hjk
    rw [getD_eq_getElem_rec rs j (lt_trans hjk hk), getD_eq_getElem_rec rs k hk]
    exact h
  have hleIdx : ∀ j, j < rs.length →
      sInt parse (rs.getD j default) ≤ eInt parse (rs.getD j default) := by
    intro j hj
    rw [getD_eq_getElem_rec rs j hj]
    exact hleM _ (List.getElem_mem _)
  have hsorted : ∀ j k, j < k → k < rs.length →
      sInt parse (rs.getD j default) ≤ sInt parse (rs.getD k default) :=
    fun j k hjk hk =>
      le_trans (hleIdx j (lt_trans hjk hk)) (le_of_lt (hchainIdx j k hjk hk))
  constructor
  · intro r hr
    rcases List.getElem_of_mem hr with ⟨i, hilen, hri⟩
    have hgd : rs.getD i default = r := by
      rw [getD_eq_getElem_rec rs i hilen, hri]
    have hEi : (parse (rs.getD i default).end_ip).isSome := by
      rw [hgd]
      exact hE r hr
    constructor
    · rcases Option.isSome_iff_exists.mp (hS r hr) with ⟨n, hn⟩
      have hx : sInt parse (rs.getD i default) = n := by
        rw [hgd, sInt, hn]
        rfl
      have := lookupIn_hit parse rs r.start_ip n i hilen hn hsorted hEi
        (fun j hj => by
          rcases Nat.eq_or_lt_of_le hj with heq | hlt
          · rw [heq, hx]
          · rw [← hx]
            exact hsorted j i hlt hilen)
        (fun j hij hj => by
          rw [← hx]
          exact lt_of_le_of_lt (hleIdx i hilen) (hchainIdx i j hij hj))
        (by rw [← hx]; exact hleIdx i hilen)
      rw [hgd] at this
      exact this
    · rcases Option.isSome_iff_exists.mp hEi with ⟨n, hn⟩
      have hx : eInt parse (rs.getD i default) = n := by
        rw [eInt, hn]
        rfl
      have hn2 : parse r.end_ip = some n := by
        rw [← hgd]
        exact hn
      have := lookupIn_hit parse rs r.end_ip n i hilen hn2 hsorted hEi
        (fun j hj => by
          rcases Nat.eq_or_lt_of_le hj with heq | hlt
          · rw [heq, ← hx]
            exact hleIdx i hilen
          · rw [← hx]
            exact le_trans (hsorted j i hlt hilen) (hleIdx i hilen))
        (fun j hij hj => by
          rw [← hx]
          exact hchainIdx i j hij hj)
        (by rw [← hx])
      rw [hgd] at this
      exact this
  · intro ip x hparse huncov
    exact lookupIn_miss parse rs ip x hparse hsorted hE huncov

/-- Claim C4: for every RangeIndex built from a family-homogeneous list
of non-overlapping ranges sorted by start address (with well-formed,
family-consistent endpoint strings), every range is returned by `lookup`
at both its inclusive `start` and `end` addresses, and `lookup` of an
address of that family covered by no range — below the first range or in
a gap — returns no match. -/
theorem c4_range_index_lookup (fam : Bool) (rs : List ASNRecord)
    (hfamS : ∀ r ∈ rs, hasColon r.start_ip = fam)
    (hfamE : ∀ r ∈ rs, hasColon r.end_ip = fam)
    (hS : ∀ r ∈ rs, (famParse fam r.start_ip).isSome)
    (hE : ∀ r ∈ rs, (famParse fam r.end_ip).isSome)
    (hle : ∀ r ∈ rs, keyS fam r ≤ keyE fam r)
    (hchain : rs.Pairwise (fun a b => keyE fam a < keyS fam b)) :
    ∃ L, ASNLookup.init rs = some L ∧
      (∀ r ∈ rs, L.lookup r.start_ip = .ok (some r) ∧
                 L.lookup r.end_ip = .ok (some r)) ∧
      (∀ ip x, hasColon ip = fam → famParse fam ip = some x →
        (∀ r ∈ rs, ¬(keyS fam r ≤ x ∧ x ≤ keyE fam r)) →
        L.lookup ip = .ok none) := by
  have hmono : rs.Pairwise (fun a b => keyS fam a ≤ keyS fam b) := by
    refine List.Pairwise.imp_of_mem ?_ hchain
    intro a b ha hb hab
    exact le_trans (hle a ha) (le_of_lt hab)
  have hinit := init_homogeneous fam rs hfamS hS hmono
  have hcore := family_core (famParse fam) rs hS hE hle hchain
  cases fam with
  | false =>
    refine ⟨⟨rs, [], rs.map (keyS false), []⟩, hinit, ?_, ?_⟩
    · intro r hr
      have hcol := hfamS r hr
      have hcolE := hfamE r hr
      have h := hcore.1 r hr
      constructor
      · rw [ASNLookup.lookup, hcol, if_neg Bool.false_ne_true, ASNLookup.lookup_ipv4]
        exact h.1
      · rw [ASNLookup.lookup, hcolE, if_neg Bool.false_ne_true, ASNLookup.lookup_ipv4]
        exact h.2
    · intro ip x hcol hparse huncov
      rw [ASNLookup.lookup, hcol, if_neg Bool.false_ne_true, ASNLookup.lookup_ipv4]
      exact hcore.2 ip x hparse huncov
  | true =>
    refine ⟨⟨[], rs, [], rs.map (keyS true)⟩, hinit, ?_, ?_⟩
    · intro r hr
      have hcol := hfamS r hr
      have hcolE := hfamE r hr
      have h := hcore.1 r hr
      constructor
      · rw [ASNLookup.lookup, hcol, if_pos rfl, ASNLookup.lookup_ipv6]
        exact h.1
      · rw [ASNLookup.lookup, hcolE, if_pos rfl, ASNLookup.lookup_ipv6]
        exact h.2
    · intro ip x hcol hparse huncov
      rw [ASNLookup.lookup, hcol, if_pos rfl, ASNLookup.lookup_ipv6]
      exact hcore.2 ip x hparse huncov

/-- Witness for C4: the two-range IPv4 fixture satisfies every
hypothesis, the built index is `lookupA`, both endpoints of the first
range are found, and the uncovered address `1.0.2.1` yields no match. -/
theorem c4_range_index_lookup_witness :
    ASNLookup.init recsA = some lookupA ∧
    lookupA.lookup "1.0.0.0" = .ok (some cfRec) ∧
    lookupA.lookup "1.0.0.255" = .ok (some cfRec) ∧
    lookupA.lookup "1.0.2.1" = .ok none := by
  obtain ⟨L, hL, hhit, hmiss⟩ := c4_range_index_lookup false recsA
    (by decide) (by decide) (by decide) (by decide) (by decide) (by decide)
  have hinit2 : ASNLookup.init recsA = some lookupA := by decide
  rw [hinit2] at hL
  have hLeq : lookupA = L := Option.some.inj hL
  rw [← hLeq] at hhit hmiss
  exact ⟨hinit2, (hhit cfRec (by decide)).1, (hhit cfRec (by decide)).2,
    hmiss "1.0.2.1" 16777729 (by decide) (by decide) (by decide)⟩

/-- Claim C3 (amended): a record whose start address is malformed for
its family is not skipped — it makes `ASNLookup.__init__` raise (the
whole index build fails); and `lookup` called with a malformed address
string returns no match instead of raising. -/
theorem c3_malformed_rows :
    (∀ (rs : List ASNRecord) (r : ASNRecord), r ∈ rs →
      hasColon r.start_ip = false → parseIPv4 r.start_ip = none →
      ASNLookup.init rs = none) ∧
    (∀ (rs : List ASNRecord) (r : ASNRecord), r ∈ rs →
      hasColon r.start_ip = true → parseIPv6 r.start_ip = none →
      ASNLookup.init rs = none) ∧
    (∀ (L : ASNLookup) (s : String), famParse (hasColon s) s = none →
      L.lookup s = .ok none) := by
  refine ⟨?_, ?_, ?_⟩
  · intro rs r hr hcol hparse
    have hmem : r ∈ rs.filter (fun r => !(hasColon r.start_ip)) :=
      List.mem_filter.mpr ⟨hr, by rw [hcol]; rfl⟩
    have hk := keyRecords_none parseIPv4 _ r hmem hparse
    rw [ASNLookup.init, hk]
  · intro rs r hr hcol hparse
    have hmem : r ∈ rs.filter (fun r => hasColon r.start_ip) :=
      List.mem_filter.mpr ⟨hr, hcol⟩
    have hk := keyRecords_none parseIPv6 _ r hmem hparse
    rw [ASNLookup.init, hk]
    cases keyRecords parseIPv4 (rs.filter (fun r => !(hasColon r.start_ip))) <;> rfl
  · intro L s hparse
    rw [ASNLookup.lookup]
    cases hcol : hasColon s with
    | false =>
      rw [hcol] at hparse
      have hp4 : parseIPv4 s = none := hparse
      rw [if_neg Bool.false_ne_true, ASNLookup.lookup_ipv4, lookupIn]
      simp only [hp4]
    | true =>
      rw [hcol] at hparse
      have hp6 : parseIPv6 s = none := hparse
      rw [if_pos rfl, ASNLookup.lookup_ipv6, lookupIn]
      simp only [hp6]

/-- Counterexample for C3: a table containing one row with a malformed
start address.  The TSV parser keeps the row (only short rows and
non-integer ASN fields are skipped), and building the index from the
parsed table then fails outright instead of skipping the row and
serving the remaining well-formed row. -/
theorem c3_counterexample :
    parse_iptoasn_tsv [goodLine, badLine] = [cfRec, badRec] ∧
    ASNLookup.init (parse_iptoasn_tsv [goodLine, badLine]) = none := by decide

/-- Witness for C3 (amended): the malformed-start row makes the build
fail, and a malformed query string yields no match on a built index. -/
theorem c3_malformed_rows_witness :
    ASNLookup.init [cfRec, badRec] = none ∧
    lookupA.lookup "not-an-ip" = .ok none := by
  refine ⟨c3_malformed_rows.1 [cfRec, badRec] badRec (by decide) (by decide)
    (by decide), c3_malformed_rows.2.2 lookupA "not-an-ip" (by decide)⟩

/-- Claim C2 (amended): a range entry matched by `lookup` — including
one with `asn=0` — is passed through by the enrichment step with its own
`asn`, `org` and `country` (never replaced by the unknown sentinel),
while an address covered by no range is enriched with the sentinel
`asn=0`, `orgName="Unknown"`, `country="None"` (so a miss does carry
`asn=0`, contrary to the original claim's last clause). -/
theorem c2_asn_zero_distinctness :
    (∀ (ip : String) (L : ASNLookup) (r : ASNRecord), L.lookup ip = .ok (some r) →
      ip_to_asn_object ip (some L) = .ok ⟨ip, r.asn, r.org, r.country⟩) ∧
    (∀ (ip : String) (L : ASNLookup), L.lookup ip = .ok none →
      ip_to_asn_object ip (some L) = .ok ⟨ip, 0, "Unknown", "None"⟩) := by
  constructor
  · intro ip L r h
    rw [ip_to_asn_object]
    simp only [h]
  · intro ip L h
    rw [ip_to_asn_object]
    simp only [h]

/-- Counterexample for C2: on the two-range fixture, the address
`1.0.2.1` is covered by no range, yet the enrichment step emits an
`asn` value of `0` (together with the `"Unknown"`/`"None"` sentinel
pair) — the claim's "never an asn value of 0" clause is false.  The
`asn=0` range itself is still returned as a distinct, preserved match. -/
theorem c2_counterexample :
    ASNLookup.init recsA = some lookupA ∧
    lookupA.lookup "1.0.2.1" = .ok none ∧
    ip_to_asn_object "1.0.2.1" (some lookupA) =
      .ok ⟨"1.0.2.1", 0, "Unknown", "None"⟩ ∧
    lookupA.lookup "1.0.1.200" = .ok (some nrRec) ∧
    ip_to_asn_object "1.0.1.200" (some lookupA) =
      .ok ⟨"1.0.1.200", 0, "Not routed", "None"⟩ := by decide

/-- Witness for C2 (amended): the `asn=0` range match is preserved with
its own org and country, and a miss is enriched with the sentinel. -/
theorem c2_asn_zero_distinctness_witness :
    ip_to_asn_object "1.0.1.200" (some lookupA) =
      .ok ⟨"1.0.1.200", 0, "Not routed", "None"⟩ ∧
    ip_to_asn_object "2.0.0.1" (some lookupA) =
      .ok ⟨"2.0.0.1", 0, "Unknown", "None"⟩ := by
  refine ⟨?_, c2_asn_zero_distinctness.2 "2.0.0.1" lookupA (by decide)⟩
  have := c2_asn_zero_distinctness.1 "1.0.1.200" lookupA nrRec (by decide)
  exact this

theorem enrich_ips_none (aliases : String → Option String) (ips : List String) :
    ∀ found, ∃ found2, enrich_ips none aliases ips found =
      .ok (ips.map (fun ip => ⟨ip, 0, "Unknown", "None"⟩), found2) := by
  induction ips with
  | nil => exact fun found => ⟨found, rfl⟩
  | cons ip rest ih =>
    intro found
    cases hal : aliases "Unknown" with
    | some al =>
      have he : enrich_ip none aliases found ip =
          .ok (⟨ip, 0, "Unknown", "None"⟩, setAdd al found) := by
        simp only [enrich_ip, ip_to_asn_object, hal]
      rcases ih (setAdd al found) with ⟨f2, hf2⟩
      exact ⟨f2, by simp only [enrich_ips, he, hf2, List.map_cons]⟩
    | none =>
      have he : enrich_ip none aliases found ip =
          .ok (⟨ip, 0, "Unknown", "None"⟩, found) := by
        simp only [enrich_ip, ip_to_asn_object, hal]
      rcases ih found with ⟨f2, hf2⟩
      exact ⟨f2, by simp only [enrich_ips, he, hf2, List.map_cons]⟩

theorem enrich_ns_none (aliases : String → Option String) (ns : NSInput) :
    ∀ found, ∃ found2, enrich_ns none aliases ns found =
      .ok (⟨ns.hostname,
        ns.ipv4.map (fun ip => ⟨ip, 0, "Unknown", "None"⟩),
        ns.ipv6.map (fun ip => ⟨ip, 0, "Unknown", "None"⟩)⟩, found2) := by
  intro found
  rcases enrich_ips_none aliases ns.ipv4 found with ⟨f1, hf1⟩
  rcases enrich_ips_none aliases ns.ipv6 f1 with ⟨f2, hf2⟩
  exact ⟨f2, by simp only [enrich_ns, hf1, hf2]⟩

theorem enrich_nameservers_none (aliases : String → Option String)
    (nss : List NSInput) : ∀ found, ∃ found2,
    enrich_nameservers_with_asn nss none aliases found =
      .ok (nss.map (fun ns => ⟨ns.hostname,
        ns.ipv4.map (fun ip => ⟨ip, 0, "Unknown", "None"⟩),
        ns.ipv6.map (fun ip => ⟨ip, 0, "Unknown", "None"⟩)⟩), found2) := by
  induction nss with
  | nil => exact fun found => ⟨found, rfl⟩
  | cons ns rest ih =>
    intro found
    rcases enrich_ns_none aliases ns found with ⟨f1, hf1⟩
    rcases ih f1 with ⟨f2, hf2⟩
    exact ⟨f2, by simp only [enrich_nameservers_with_asn, hf1, hf2, List.map_cons]⟩

/-- Claim C10: with no ASN lookup table loaded, enrichment still runs:
every IP string becomes a full IP object carrying the sentinel `asn=0`,
`"Unknown"`, `"None"` — identical to the object produced for a lookup
miss — and the built entry's `nameservers` field holds exactly these
objects whenever the page data has nameservers. -/
theorem c10_no_table_sentinel :
    (∀ ip : String, ip_to_asn_object ip none = .ok ⟨ip, 0, "Unknown", "None"⟩) ∧
    (∀ (ip : String) (L : ASNLookup), L.lookup ip = .ok none →
      ip_to_asn_object ip (some L) = ip_to_asn_object ip none) ∧
    (∀ (nss : List NSInput) (aliases : String → Option String)
        (found : List String), ∃ found2,
      enrich_nameservers_with_asn nss none aliases found =
        .ok (nss.map (fun ns => ⟨ns.hostname,
          ns.ipv4.map (fun ip => ⟨ip, 0, "Unknown", "None"⟩),
          ns.ipv6.map (fun ip => ⟨ip, 0, "Unknown", "None"⟩)⟩), found2)) ∧
    (∀ (idnaDecode pycountryName rdap_lookup idn_script_mapping
          tld_manager_aliases as_org_aliases : String → Option String)
        (supplemental_rdap : String → Option SupplementalEntry)
        (registry_agreements : String → Option RegistryAgreement)
        (rz : RootZoneEntry) (page_data : PageData) (nss : List NSInput)
        (e : TldEntry),
      page_data.nameservers = some nss →
      build_tld_entry idnaDecode pycountryName rz rdap_lookup supplemental_rdap
        page_data idn_script_mapping registry_agreements tld_manager_aliases
        as_org_aliases none = .ok e →
      e.nameservers = some (nss.map (fun ns => ⟨ns.hostname,
        ns.ipv4.map (fun ip => ⟨ip, 0, "Unknown", "None"⟩),
        ns.ipv6.map (fun ip => ⟨ip, 0, "Unknown", "None"⟩)⟩))) := by
  refine ⟨fun ip => rfl, ?_, ?_, ?_⟩
  · intro ip L h
    simp only [ip_to_asn_object, h]
  · exact fun nss aliases found => enrich_nameservers_none aliases nss found
  · intro idnaDecode pycountryName rdap_lookup idn_script_mapping
      tld_manager_aliases as_org_aliases supplemental_rdap registry_agreements
      rz page_data nss e hns hb
    rcases enrich_nameservers_none as_org_aliases nss [] with ⟨f2, hf2⟩
    rw [build_tld_entry] at hb
    simp only [hns, hf2] at hb
    have := PyResult.ok.inj hb
    rw [← this]

/-- Witness for C10: on a concrete entry with one nameserver and no ASN
table, the built entry holds full sentinel IP objects, and the no-table
object coincides with the lookup-miss object. -/
theorem c10_no_table_sentinel_witness :
    lookupA.lookup "1.0.2.1" = .ok none ∧
    ip_to_asn_object "1.0.2.1" (some lookupA) = ip_to_asn_object "1.0.2.1" none ∧
    (match build_tld_entry noStrMap noStrMap rzExample noStrMap noSupp nsPage
        noStrMap noAgree noStrMap noStrMap none with
      | .raised => none
      | .ok e => e.nameservers) =
      some [⟨"ns1.example", [⟨"1.2.3.4", 0, "Unknown", "None"⟩],
        [⟨"2:db8::1", 0, "Unknown", "None"⟩]⟩] := by
  refine ⟨by decide, c10_no_table_sentinel.2.1 "1.0.2.1" lookupA (by decide), ?_⟩
  cases hbuild : build_tld_entry noStrMap noStrMap rzExample noStrMap noSupp
      nsPage noStrMap noAgree noStrMap noStrMap none with
  | raised => exact absurd hbuild (by decide)
  | ok e =>
    have h := c10_no_table_sentinel.2.2.2 noStrMap noStrMap noStrMap noStrMap
      noStrMap noStrMap noSupp noAgree rzExample nsPage
      [⟨"ns1.example", ["1.2.3.4"], ["2:db8::1"]⟩] e rfl hbuild
    simpa using h

/-- Claim C1 (amended): the RDAP server precedence is page data over
bootstrap (the record's `rdap_server` is the page-data value whenever
the page has one), but the provenance annotation does not distinguish
the two: both the page-data case and the bootstrap case set
`rdap_source = "IANA"`; only the supplemental source carries a distinct
tag, so a bootstrap-served entry is annotated `"IANA"`, never
`"bootstrap"`. -/
theorem c1_rdap_precedence
    (idnaDecode pycountryName rdap_lookup idn_script_mapping
      tld_manager_aliases as_org_aliases : String → Option String)
    (supplemental_rdap : String → Option SupplementalEntry)
    (registry_agreements : String → Option RegistryAgreement)
    (rz : RootZoneEntry) (page_data : PageData)
    (asn_lookup : Option ASNLookup) (e : TldEntry)
    (hb : build_tld_entry idnaDecode pycountryName rz rdap_lookup
      supplemental_rdap page_data idn_script_mapping registry_agreements
      tld_manager_aliases as_org_aliases asn_lookup = .ok e) :
    (∀ s, page_data.rdap_server = some s → s ≠ "" →
      e.rdap_server = some s ∧ e.rdapSourceAnn = some "IANA") ∧
    (∀ u, page_data.rdap_server = none →
      rdap_lookup (lstripDots rz.domain) = some u → u ≠ "" →
      e.rdap_server = some u ∧ e.rdapSourceAnn = some "IANA" ∧
      e.rdapSourceAnn ≠ some "bootstrap") := by
  rw [build_tld_entry] at hb
  split at hb
  · exact absurd hb (by simp)
  · have he := PyResult.ok.inj hb
    subst he
    constructor
    · intro s hrs hs
      constructor
      · simp [hrs, optTruthy, hs]
      · simp [hrs, TldEntry.rdapSourceAnn, Annots.nonempty, optTruthy]
    · intro u hrs hlk hu
      refine ⟨?_, ?_, ?_⟩
      · simp [hrs, hlk, optTruthy, hu]
      · simp [hrs, hlk, TldEntry.rdapSourceAnn, Annots.nonempty, optTruthy]
      · simp [hrs, hlk, TldEntry.rdapSourceAnn, Annots.nonempty, optTruthy]

/-- Counterexample for C1: the spec's own two-source scenario — no
page-data RDAP, bootstrap maps the label to `https://rdap.iana.org/` —
yields `rdap_source = "IANA"`, not `"bootstrap"`. -/
theorem c1_counterexample :
    pyRdapServer (build_tld_entry noStrMap noStrMap rzExample bsLookup noSupp
      PageData.empty noStrMap noAgree noStrMap noStrMap none) =
      some "https://rdap.iana.org/" ∧
    pyRdapSource (build_tld_entry noStrMap noStrMap rzExample bsLookup noSupp
      PageData.empty noStrMap noAgree noStrMap noStrMap none) = some "IANA" ∧
    (some "IANA" : Option String) ≠ some "bootstrap" := by decide

/-- Witness for C1 (amended): with both a page-data RDAP URL and a
bootstrap entry, the built record serves the page-data URL and is
annotated `"IANA"`. -/
theorem c1_rdap_precedence_witness :
    pyRdapServer (build_tld_entry noStrMap noStrMap rzExample bsLookup noSupp
      pageRdapPage noStrMap noAgree noStrMap noStrMap none) =
      some "https://page.example/rdap" ∧
    pyRdapSource (build_tld_entry noStrMap noStrMap rzExample bsLookup noSupp
      pageRdapPage noStrMap noAgree noStrMap noStrMap none) = some "IANA" := by
  cases hbuild : build_tld_entry noStrMap noStrMap rzExample bsLookup noSupp
      pageRdapPage noStrMap noAgree noStrMap noStrMap none with
  | raised => exact absurd hbuild (by decide)
  | ok e =>
    have h := (c1_rdap_precedence noStrMap noStrMap bsLookup noStrMap noStrMap
      noStrMap noSupp noAgree rzExample pageRdapPage none e hbuild).1
      "https://page.example/rdap" rfl (by decide)
    simp only [pyRdapServer, pyRdapSource]
    exact ⟨h.1, h.2⟩


theorem bind_rdap_source_none (c : Prop) [Decidable c] (a : Annots)
    (h : a.rdap_source = none) :
    ((if c then some a else none).bind (fun x => x.rdap_source)) = none := by
  split
  · simp [h]
  · rfl

/-- Claim C9 (amended): a built record never carries `rdap_server`
without the `rdap_source` annotation; and provided every available
source value is a nonempty string, the two are present together.  The
unconditional converse is false: a page-data (or supplemental) RDAP
value that is the empty string sets the provenance annotation while the
falsy server value is dropped. -/
theorem c9_rdap_pairing
    (idnaDecode pycountryName rdap_lookup idn_script_mapping
      tld_manager_aliases as_org_aliases : String → Option String)
    (supplemental_rdap : String → Option SupplementalEntry)
    (registry_agreements : String → Option RegistryAgreement)
    (rz : RootZoneEntry) (page_data : PageData)
    (asn_lookup : Option ASNLookup) (e : TldEntry)
    (hb : build_tld_entry idnaDecode pycountryName rz rdap_lookup
      supplemental_rdap page_data idn_script_mapping registry_agreements
      tld_manager_aliases as_org_aliases asn_lookup = .ok e) :
    (e.rdap_server.isSome → e.rdapSourceAnn.isSome) ∧
    ((∀ s, page_data.rdap_server = some s → s ≠ "") →
     (∀ u, rdap_lookup (lstripDots rz.domain) = some u → u ≠ "") →
     (∀ se, supplemental_rdap (lstripDots rz.domain) = some se →
       se.rdap_server ≠ "") →
     e.rdapSourceAnn.isSome → e.rdap_server.isSome) := by
  rw [build_tld_entry] at hb
  split at hb
  · exact absurd hb (by simp)
  · have he := PyResult.ok.inj hb
    subst he
    cases hpd : page_data.rdap_server with
    | some s =>
      by_cases hs : s = ""
      · constructor
        · intro hsome
          simp [hpd, optTruthy, hs] at hsome
        · intro hne1 _ _ _
          exact absurd hs (hne1 s rfl)
      · constructor
        · intro _
          simp [hpd, TldEntry.rdapSourceAnn, Annots.nonempty, optTruthy]
        · intro _ _ _ _
          simp [hpd, optTruthy, hs]
    | none =>
      cases hlk : rdap_lookup (lstripDots rz.domain) with
      | some u =>
        by_cases hu : u = ""
        · constructor
          · intro hsome
            simp [hpd, hlk, optTruthy, hu] at hsome
          · intro _ hne2 _ _
            exact absurd hu (hne2 u rfl)
        · constructor
          · intro _
            simp [hpd, hlk, TldEntry.rdapSourceAnn, Annots.nonempty, optTruthy]
          · intro _ _ _ _
            simp [hpd, hlk, optTruthy, hu]
      | none =>
        cases hsu : supplemental_rdap (lstripDots rz.domain) with
        | some se =>
          by_cases hse : se.rdap_server = ""
          · constructor
            · intro hsome
              simp [hpd, hlk, hsu, optTruthy, hse] at hsome
            · intro _ _ hne3 _
              exact absurd hse (hne3 se rfl)
          · constructor
            · intro _
              simp [hpd, hlk, hsu, TldEntry.rdapSourceAnn, Annots.nonempty,
                optTruthy]
            · intro _ _ _ _
              simp [hpd, hlk, hsu, optTruthy, hse]
        | none =>
          constructor
          · intro hsome
            simp [hpd, hlk, hsu, optTruthy] at hsome
          · intro _ _ _ hsome
            rw [TldEntry.rdapSourceAnn] at hsome
            simp only [hpd, hlk, hsu] at hsome
            rw [bind_rdap_source_none _ _ rfl] at hsome
            simp at hsome

/-- Counterexample for C9: page data whose RDAP server value is the
empty string produces a record with the `rdap_source` annotation set to
`"IANA"` but no `rdap_server` field — a provenance annotation without a
server. -/
theorem c9_counterexample :
    pyRdapServer (build_tld_entry noStrMap noStrMap rzExample noStrMap noSupp
      emptyRdapPage noStrMap noAgree noStrMap noStrMap none) = none ∧
    pyRdapSource (build_tld_entry noStrMap noStrMap rzExample noStrMap noSupp
      emptyRdapPage noStrMap noAgree noStrMap noStrMap none) = some "IANA" := by
  decide

/-- Witness for C9 (amended): on a concrete build whose only available
RDAP value is a nonempty page-data URL, the server field and the
provenance annotation are present together. -/
theorem c9_rdap_pairing_witness :
    build_tld_entry noStrMap noStrMap rzExample noStrMap noSupp pageRdapPage
      noStrMap noAgree noStrMap noStrMap none = .ok c9WitnessEntry ∧
    c9WitnessEntry.rdapSourceAnn.isSome = true ∧
    c9WitnessEntry.rdap_server.isSome = true := by
  have hbuild : build_tld_entry noStrMap noStrMap rzExample noStrMap noSupp
      pageRdapPage noStrMap noAgree noStrMap noStrMap none =
      .ok c9WitnessEntry := by decide
  have h := c9_rdap_pairing noStrMap noStrMap noStrMap noStrMap noStrMap
    noStrMap noSupp noAgree rzExample pageRdapPage none c9WitnessEntry hbuild
  have h1 : c9WitnessEntry.rdapSourceAnn.isSome = true := h.1 (by decide)
  have h2 : c9WitnessEntry.rdap_server.isSome = true :=
    h.2 (fun s hs => by rw [← Option.some.inj hs]; decide)
      (fun u hu => Option.noConfusion hu)
      (fun se hse => Option.noConfusion hse) h1
  exact ⟨hbuild, h1, h2⟩

theorem label_unique (tlds : List TldEntry)
    (hdist : tlds.Pairwise (fun a b => a.tld ≠ b.tld))
    (e r : TldEntry) (he : e ∈ tlds) (hr : r ∈ tlds) (heq : e.tld = r.tld) :
    e = r := by
  rcases List.getElem_of_mem he with ⟨i, hi, hie⟩
  rcases List.getElem_of_mem hr with ⟨j, hj, hjr⟩
  rcases lt_trichotomy i j with h | h | h
  · have := List.pairwise_iff_getElem.mp hdist i j hi hj h
    rw [hie, hjr] at this
    exact absurd heq this
  · subst h
    rw [← hie, ← hjr]
  · have := List.pairwise_iff_getElem.mp hdist j i hj hi h
    rw [hie, hjr] at this
    exact absurd heq.symm this

theorem add_idn_mappings_get? (tlds : List TldEntry) (j : Nat) (t : TldEntry)
    (ht : tlds.get? j = some t) :
    (add_idn_mappings tlds).get? j = some (
      if !(idnGroup tlds t.tld).isEmpty
          && (tlds.drop (j + 1)).all (fun e2 => !(e2.tld == t.tld)) then
        t.withIdn (sortStrings (idnGroup tlds t.tld))
      else t) := by
  rw [add_idn_mappings, List.get?_eq_getElem?, List.getElem?_map,
    List.getElem?_enum]
  rw [List.get?_eq_getElem?] at ht
  rw [ht]
  rfl

/-- Claim C8: after the cross-reference pass over a list of records with
pairwise-distinct labels and no preexisting `idn` fields, every record
carrying `tld_iso = A` whose target ASCII record (label `A`) is present
causes that target to receive the sorted group list, which contains the
record's own label; and when no record has label `A`, the pass still
completes (one output record per input record) and the record's label
appears in no attached `idn` list. -/
theorem c8_idn_cross_reference (tlds : List TldEntry) (A : String)
    (hdist : tlds.Pairwise (fun a b => a.tld ≠ b.tld))
    (hidn : ∀ e ∈ tlds, e.idn = none) :
    (add_idn_mappings tlds).length = tlds.length ∧
    (∀ r ∈ tlds, r.tld_iso = some A →
      (∀ (j : Nat) (t : TldEntry), tlds.get? j = some t → t.tld = A →
        (add_idn_mappings tlds).get? j =
          some (t.withIdn (sortStrings (idnGroup tlds A))) ∧
        r.tld ∈ sortStrings (idnGroup tlds A) ∧
        (sortStrings (idnGroup tlds A)).Pairwise (fun a b => a ≤ b)) ∧
      ((∀ t ∈ tlds, t.tld ≠ A) →
        ∀ (j : Nat) (t2 : TldEntry), (add_idn_mappings tlds).get? j = some t2 →
          ∀ l, t2.idn = some l → r.tld ∉ l)) := by
  have hlen : (add_idn_mappings tlds).length = tlds.length := by
    rw [add_idn_mappings, List.length_map, List.enum_length]
  refine ⟨hlen, ?_⟩
  intro r hr hiso
  have hrmem : r.tld ∈ idnGroup tlds A := by
    rw [idnGroup]
    exact List.mem_map.mpr ⟨r, List.mem_filter.mpr ⟨hr, by simp [hiso]⟩, rfl⟩
  have hne : (idnGroup tlds A).isEmpty = false := by
    cases hgrp : idnGroup tlds A with
    | nil => rw [hgrp] at hrmem; cases hrmem
    | cons x xs => rfl
  constructor
  · intro j t ht htA
    have hj : j < tlds.length := by
      rw [List.get?_eq_getElem?] at ht
      exact (List.getElem?_eq_some.mp ht).1
    have htj : tlds[j] = t := by
      rw [List.get?_eq_getElem?, List.getElem?_eq_getElem hj] at ht
      exact Option.some.inj ht
    have hall : (tlds.drop (j + 1)).all (fun e2 => !(e2.tld == t.tld)) = true := by
      rw [List.all_eq_true]
      intro e2 he2
      rcases List.getElem_of_mem he2 with ⟨k, hk, hke⟩
      rw [List.getElem_drop] at hke
      have hkb : j + 1 + k < tlds.length := by
        have := hk
        rw [List.length_drop] at this
        omega
      have hne2 := List.pairwise_iff_getElem.mp hdist j (j + 1 + k) hj hkb
        (by omega)
      rw [htj, hke] at hne2
      simp [hne2.symm]
    rw [htA] at hall
    rw [add_idn_mappings_get? tlds j t ht, htA, hne, hall]
    exact ⟨rfl, (mem_sortStrings _ _).mpr hrmem, sortStrings_sorted _⟩
  · intro hA j t2 ht2 l hl
    have hj : j < tlds.length := by
      have : j < (add_idn_mappings tlds).length := by
        rw [List.get?_eq_getElem?] at ht2
        exact (List.getElem?_eq_some.mp ht2).1
      rw [hlen] at this
      exact this
    have htj : tlds.get? j = some tlds[j] :=
      by rw [List.get?_eq_getElem?, List.getElem?_eq_getElem hj]
    have hmemj : tlds[j] ∈ tlds := List.getElem_mem _
    rw [add_idn_mappings_get? tlds j tlds[j] htj] at ht2
    have ht2' := Option.some.inj ht2
    intro hmeml
    by_cases hcond : (!(idnGroup tlds tlds[j].tld).isEmpty
        && (tlds.drop (j + 1)).all (fun e2 => !(e2.tld == tlds[j].tld))) = true
    · rw [if_pos hcond] at ht2'
      rw [← ht2'] at hl
      have hleq : l = sortStrings (idnGroup tlds tlds[j].tld) :=
        (Option.some.inj hl).symm
      rw [hleq] at hmeml
      have hg := (mem_sortStrings _ _).mp hmeml
      rw [idnGroup] at hg
      rcases List.mem_map.mp hg with ⟨e, hemem, hetld⟩
      rcases List.mem_filter.mp hemem with ⟨hein, hepred⟩
      have heiso : e.tld_iso = some tlds[j].tld := by simpa using hepred
      have her : e = r := label_unique tlds hdist e r hein hr hetld
      rw [her] at heiso
      rw [hiso] at heiso
      have : tlds[j].tld = A := (Option.some.inj heiso).symm
      exact absurd this (hA _ hmemj)
    · rw [if_neg hcond] at ht2'
      rw [← ht2'] at hl
      rw [hidn _ hmemj] at hl
      exact Option.noConfusion hl

/-- Witness for C8: on the four-entry fixture, the ASCII record `tw`
receives the sorted group, which contains the IDN label
`xn--kpry57d`. -/
theorem c8_idn_cross_reference_witness :
    (add_idn_mappings tlds4).get? 0 =
      some ((mkCcEntry "tw" none).withIdn (sortStrings (idnGroup tlds4 "tw"))) ∧
    "xn--kpry57d" ∈ sortStrings (idnGroup tlds4 "tw") ∧
    (sortStrings (idnGroup tlds4 "tw")).Pairwise (fun a b => a ≤ b) := by
  have h := ((c8_idn_cross_reference tlds4 "tw" (by decide) (by decide)).2
    (mkCcEntry "xn--kpry57d" (some "tw")) (by decide) rfl).1
    0 (mkCcEntry "tw" none) rfl rfl
  exact ⟨h.1, h.2.1, h.2.2⟩

/-! ### Lemmas about the persistence model -/

theorem lookup_popField [DecidableEq V] (field k : String)
    (d : List (String × V)) :
    List.lookup k (popField field d) =
      if k = field then none else List.lookup k d := by
  induction d with
  | nil => simp [popField]
  | cons kv rest ih =>
    rw [popField] at ih ⊢
    by_cases ha : kv.1 = field
    · rw [List.filter_cons]
      simp only [ha]
      by_cases hk : k = field
      · simpa [hk] using ih
      · have : (k == kv.1) = false := beq_eq_false_iff_ne.mpr (by rw [ha]; exact hk)
        simp only [beq_self_eq_true, Bool.not_true, if_neg, Bool.false_eq_true,
          ite_false]
        rw [ih]
        simp [hk, List.lookup, this]
    · rw [List.filter_cons]
      have hne : (kv.1 == field) = false := beq_eq_false_iff_ne.mpr ha
      simp only [hne, Bool.not_false, if_pos]
      by_cases hk : k = kv.1
      · simp [hk, List.lookup, ha]
      · have hkb : (k == kv.1) = false := beq_eq_false_iff_ne.mpr hk
        simp [List.lookup, hkb, ih]

theorem lookup_stripFields [DecidableEq V] (exclude_fields : List String)
    (k : String) (d : List (String × V)) :
    List.lookup k (stripFields exclude_fields d) =
      if k ∈ exclude_fields then none else List.lookup k d := by
  induction exclude_fields generalizing d with
  | nil => simp [stripFields]
  | cons f fs ih =>
    rw [stripFields, List.foldl_cons]
    have : fs.foldl (fun acc f => popField f acc) (popField f d) =
        stripFields fs (popField f d) := rfl
    rw [this, ih, lookup_popField]
    by_cases h1 : k ∈ fs
    · simp [h1]
    · by_cases h2 : k = f
      · simp [h1, h2]
      · simp [h1, h2]

theorem dictBeq_self [DecidableEq V] (d : List (String × V)) :
    dictBeq d d = true := by
  rw [dictBeq]
  simp

theorem dictBeq_of_lookup_eq [DecidableEq V] (d1 d2 : List (String × V))
    (h : ∀ k, List.lookup k d1 = List.lookup k d2) : dictBeq d1 d2 = true := by
  rw [dictBeq]
  simp only [Bool.and_eq_true, List.all_eq_true]
  constructor
  · intro kv _
    rw [h kv.1]
    exact beq_self_eq_true _
  · intro kv _
    rw [h kv.1]
    exact beq_self_eq_true _

/-- Claim C5: calling `write_json_if_changed` twice in a row with an
identical dataset, starting from no existing file, returns status
`written` (with `changed=true`) on the first call and `unchanged` (with
`changed=false`) on the second. -/
theorem c5_write_idempotent {V : Type} [DecidableEq V]
    (data : List (String × V)) (exclude_fields : List String)
    (m0 now1 now2 : Nat) :
    (write_json_if_changed now1 ⟨none, m0⟩ data exclude_fields).changed = true ∧
    (write_json_if_changed now1 ⟨none, m0⟩ data exclude_fields).status =
      "written" ∧
    (write_json_if_changed now2
      (write_json_if_changed now1 ⟨none, m0⟩ data exclude_fields).fs
      data exclude_fields).changed = false ∧
    (write_json_if_changed now2
      (write_json_if_changed now1 ⟨none, m0⟩ data exclude_fields).fs
      data exclude_fields).status = "unchanged" := by
  have h1 : write_json_if_changed now1 (⟨none, m0⟩ : FileState V) data
      exclude_fields = ⟨⟨some (.parsed data), now1⟩, true, "written"⟩ := rfl
  have h2 : write_json_if_changed now2
      (⟨some (.parsed data), now1⟩ : FileState V) data exclude_fields =
      ⟨⟨some (.parsed data), now1⟩, false, "unchanged"⟩ := by
    rw [write_json_if_changed]
    simp only [dictBeq_self, if_true]
  rw [h1, h2]
  exact ⟨rfl, rfl, rfl, rfl⟩

/-- Witness for C5: the concrete two-call sequence on a fresh path. -/
theorem c5_write_idempotent_witness :
    (write_json_if_changed 5 (⟨none, 0⟩ : FileState Nat)
      [("a", 1), ("publication", 7)] ["publication"]).changed = true ∧
    (write_json_if_changed 5 (⟨none, 0⟩ : FileState Nat)
      [("a", 1), ("publication", 7)] ["publication"]).status = "written" ∧
    (write_json_if_changed 9
      (write_json_if_changed 5 (⟨none, 0⟩ : FileState Nat)
        [("a", 1), ("publication", 7)] ["publication"]).fs
      [("a", 1), ("publication", 7)] ["publication"]).changed = false ∧
    (write_json_if_changed 9
      (write_json_if_changed 5 (⟨none, 0⟩ : FileState Nat)
        [("a", 1), ("publication", 7)] ["publication"]).fs
      [("a", 1), ("publication", 7)] ["publication"]).status = "unchanged" :=
  c5_write_idempotent [("a", 1), ("publication", 7)] ["publication"] 0 5 9

/-- Claim C6: when the new dataset differs from the parsed prior
snapshot only in top-level fields listed in `exclude_fields`, the call
returns `unchanged` (with `changed=false`) and performs no write: the
resulting file state — contents and modification time — is exactly the
input one. -/
theorem c6_volatile_blindness {V : Type} [DecidableEq V]
    (prior data : List (String × V)) (exclude_fields : List String)
    (m now : Nat)
    (hdiff : ∀ k, k ∉ exclude_fields →
      List.lookup k data = List.lookup k prior) :
    write_json_if_changed now ⟨some (.parsed prior), m⟩ data exclude_fields =
      ⟨⟨some (.parsed prior), m⟩, false, "unchanged"⟩ := by
  have heq : dictBeq (stripFields exclude_fields data)
      (stripFields exclude_fields prior) = true := by
    apply dictBeq_of_lookup_eq
    intro k
    rw [lookup_stripFields, lookup_stripFields]
    by_cases hk : k ∈ exclude_fields
    · simp [hk]
    · simp [hk, hdiff k hk]
  rw [write_json_if_changed]
  simp only [heq, if_true]

/-- Witness for C6: a prior snapshot and a new dataset differing only in
the excluded `publication` field leave the file state untouched. -/
theorem c6_volatile_blindness_witness :
    write_json_if_changed 9
      (⟨some (.parsed [("a", 1), ("publication", 7)]), 3⟩ : FileState Nat)
      [("a", 1), ("publication", 8)] ["publication"] =
      ⟨⟨some (.parsed [("a", 1), ("publication", 7)]), 3⟩, false,
        "unchanged"⟩ := by
  apply c6_volatile_blindness
  intro k hk
  have hkp : k ≠ "publication" := by simpa using hk
  by_cases hka : k = "a"
  · rw [hka]
    rfl
  · have h1 : (k == "a") = false := beq_eq_false_iff_ne.mpr hka
    have h2 : (k == "publication") = false := beq_eq_false_iff_ne.mpr hkp
    simp [List.lookup, h1, h2]

/-- Claim C7: an existing snapshot whose contents fail to parse as JSON
is treated as changed — the file is overwritten with the new dataset and
the call returns `written` with `changed=true`. -/
theorem c7_corrupt_snapshot_overwritten {V : Type} [DecidableEq V]
    (data : List (String × V)) (exclude_fields : List String)
    (now : Nat) (fs : FileState V) (hc : fs.content = some .corrupt) :
    write_json_if_changed now fs data exclude_fields =
      ⟨⟨some (.parsed data), now⟩, true, "written"⟩ := by
  rw [write_json_if_changed, hc]

/-- Witness for C7: overwriting a concrete corrupt snapshot. -/
theorem c7_corrupt_snapshot_overwritten_witness :
    write_json_if_changed 9 (⟨some .corrupt, 3⟩ : FileState Nat) [("a", 1)]
      [] = ⟨⟨some (.parsed [("a", 1)]), 9⟩, true, "written"⟩ :=
  c7_corrupt_snapshot_overwritten [("a", 1)] [] 9 ⟨some .corrupt, 3⟩ rfl
